import Mathlib

/-! A forward HTTP/HTTPS proxy: dispatch, plain-HTTP relay and CONNECT tunnel.

Shallow embedding of `proxy/proxy.go`.  The handler functions `ServeHTTP`,
`SendErrorAtServingRequest`, `Http_proxy`, `getRemoteAddr`, `Https_proxy` and
`transfer` are transcribed statement by statement.  The Go standard library they
call is the environment:

* what the network decides (`url.Parse` accepting a URL, `http.Client.Do`,
  `net.DialTimeout`, `Hijacker.Hijack`) is an input (`Env`, `ResponseWriter.hijacker`);
* `http.ResponseWriter` is the writer of the `net/http` server, as far as the final
  response goes: the header map, the first final status code written (a code outside
  100..999 makes `WriteHeader` panic, an interim 1xx code leaves the final status
  open), the header map as it stood at that moment, and the body bytes, which are
  dropped for a HEAD request;
* `io.Copy` is its generic read/write loop, over a source given as the list of the
  results of its successive `Read` calls;
* a `go` statement is recorded as an event; the goroutine body `transfer` is
  embedded on its own.

A Go string and a Go byte slice are both sequences of bytes; `String` is used for
the former and `List Char` for the latter, `[]byte(s)` being `s.data`.
-/

namespace GoProxy

/-! ## Values of the Go runtime and standard library -/

/-- A Go `error`, identified by the text its `Error()` method returns. -/
structure GoError where
  msg : String
deriving DecidableEq, Repr

/-- A byte slice. -/
abbrev Bytes := List Char

/-- The sentinel `io.EOF`. -/
def EOF : GoError := ⟨"EOF"⟩

/-- The sentinel `io.ErrShortWrite`. -/
def ErrShortWrite : GoError := ⟨"short write"⟩

/-- The error `io.Copy` reports for a `Write` that returns an impossible count. -/
def errInvalidWrite : GoError := ⟨"invalid write result"⟩

/-- A `map[string][]string` (`http.Header`): one entry per key.  The order of the
entries is the order in which a `range` loop visits them. -/
abbrev Header := List (String × List String)

/-- The map index expression `h[k]` with its presence flag. -/
def mapLookup (h : Header) (k : String) : Option (List String) :=
  match h with
  | [] => none
  | kv :: rest => if kv.1 = k then some kv.2 else mapLookup rest k

/-- The map index expression `h[k]`: the nil (empty) slice for a missing key. -/
def mapGet (h : Header) (k : String) : List String :=
  (mapLookup h k).getD []

/-- The map assignment `h[k] = v`. -/
def mapSet (h : Header) (k : String) (v : List String) : Header :=
  match h with
  | [] => [(k, v)]
  | kv :: rest => if kv.1 = k then (k, v) :: rest else kv :: mapSet rest k v

/-- The builtin `delete(h, k)`. -/
def mapDelete (h : Header) (k : String) : Header :=
  h.filter (fun kv => !decide (kv.1 = k))

/-- The bytes allowed in a header field name (`textproto.validHeaderFieldByte`,
the HTTP token characters): letters, digits and
`! # $ % & ' * + - . ^ _ backquote | ~`. -/
def validHeaderFieldByte (c : Char) : Bool :=
  c.isAlphanum ||
    [33, 35, 36, 37, 38, 39, 42, 43, 45, 46, 94, 95, 96, 124, 126].contains c.toNat

/-- The casing loop of `textproto.canonicalMIMEHeaderKey`: upper case for the first
letter and for a letter after a dash, lower case for every other letter. -/
def canonicalizeBytes : Bool → List Char → List Char
  | _, [] => []
  | upper, c :: cs =>
    let c1 :=
      if upper && c.isLower then c.toUpper
      else if !upper && c.isUpper then c.toLower
      else c
    c1 :: canonicalizeBytes (c1 == '-') cs

/-- The function `textproto.CanonicalMIMEHeaderKey`: a key holding a byte that is not
a token character is returned unchanged. -/
def CanonicalMIMEHeaderKey (s : String) : String :=
  if s.data.all validHeaderFieldByte then String.mk (canonicalizeBytes true s.data) else s

/-- The method `Header.Add`. -/
def Header.Add (h : Header) (key value : String) : Header :=
  let key := CanonicalMIMEHeaderKey key
  mapSet h key (mapGet h key ++ [value])

/-- The method `Header.Set`. -/
def Header.Set (h : Header) (key value : String) : Header :=
  mapSet h (CanonicalMIMEHeaderKey key) [value]

/-- The method `Header.Del`. -/
def Header.Del (h : Header) (key : String) : Header :=
  mapDelete h (CanonicalMIMEHeaderKey key)

/-- The function `strings.Replace(s, old, new, 1)` on the bytes of `s`: the first
occurrence of `old` is replaced by `new`. -/
def replaceFirst (old new : List Char) : List Char → List Char
  | [] => if old = [] then new else []
  | c :: cs =>
    if old.isPrefixOf (c :: cs) then new ++ (c :: cs).drop old.length
    else c :: replaceFirst old new cs

/-- The call `strings.Replace(s, old, new, 1)`. -/
def stringsReplace1 (s old new : String) : String :=
  String.mk (replaceFirst old.data new.data s.data)

/-- One call of `Read` on a stream: the bytes it delivered and the error it returned
with them (`none` for `nil`). -/
structure ReadStep where
  data : Bytes
  err : Option GoError
deriving DecidableEq, Repr

/-- An `io.Reader`, as the results of its successive `Read` calls; once they are
used up `Read` returns `0, io.EOF`. -/
abbrev Reader := List ReadStep

/-- A network connection (`net.Conn`), by identity. -/
structure Conn where
  id : Nat
deriving DecidableEq, Repr

/-- What `Hijacker.Hijack()` returns: the connection (`none` for `nil`) and the
error (`none` for `nil`). -/
structure HijackResult where
  conn : Option Conn
  err : Option GoError
deriving DecidableEq, Repr

/-- The inbound request (`*http.Request` as the server hands it to the handler). -/
structure Request where
  Method : String
  Host : String
  RequestURI : String
  Header : Header
  Body : Reader
deriving DecidableEq, Repr

/-- The outbound request (`*http.Request` as built by `http.NewRequest`); `URL` is
the URL string it was built from. -/
structure ClientRequest where
  Method : String
  URL : String
  Header : Header
  Body : Reader
deriving DecidableEq, Repr

/-- The origin response (`*http.Response`). -/
structure Response where
  StatusCode : Nat
  Header : Header
  Body : Reader
deriving DecidableEq, Repr

/-- What the network decides. -/
structure Env where
  /-- The error `http.NewRequest` returns for a method and a URL (an invalid method,
  or a URL that `url.Parse` rejects); `none` when the request can be built. -/
  newRequestErr : String → String → Option GoError
  /-- The result of `(&http.Client{}).Do(req)`. -/
  clientDo : ClientRequest → Except GoError Response
  /-- The result of `net.DialTimeout("tcp", addr, 10*time.Second)`. -/
  dial : String → Except GoError Conn

/-- The function `http.NewRequest(method, url, body)`. -/
def NewRequest (env : Env) (method url : String) (body : Reader) :
    Except GoError ClientRequest :=
  let method := if method = "" then "GET" else method
  match env.newRequestErr method url with
  | some err => .error err
  | none => .ok { Method := method, URL := url, Header := [], Body := body }

/-! ## The response writer and the record of effects -/

/-- The `http.ResponseWriter` of one request: the final response as the client
observes it. -/
structure ResponseWriter where
  /-- The map `w.Header()`. -/
  header : Header
  /-- Whether the status line has been written. -/
  wroteHeader : Bool
  /-- The status code the client receives. -/
  status : Nat
  /-- The header map the client receives: `w.Header()` as it stood when the status
  line was written. -/
  sentHeader : Header
  /-- The body bytes the client receives. -/
  body : Bytes
  /-- The result of `w.(http.Hijacker)`: `none` when `w` is not a `Hijacker`,
  otherwise what its `Hijack()` returns. -/
  hijacker : Option HijackResult
deriving DecidableEq, Repr

/-- The effects of a handler, in the order they happen. -/
inductive Event where
  | newRequest (method url : String)
  | clientDo (req : ClientRequest)
  | headerAdd (key value : String)
  | headerSet (key value : String)
  | headerDel (key : String)
  | writeHeader (code : Nat)
  | write (p : Bytes)
  | bodyClose
  | dial (addr : String)
  | hijack
  | goTransfer (destination source : Option Conn)
deriving DecidableEq, Repr

/-- The state a handler runs in. -/
structure World where
  w : ResponseWriter
  /-- The method of the request being answered, which the writer of the server
  holds (`w.req.Method`). -/
  method : String
  trace : List Event
  /-- The value of the panic that ended the handler, if one did. -/
  panicked : Option String
deriving DecidableEq, Repr

/-- The state at the entry of a handler that answers a request of method `method`. -/
def World.enter (w : ResponseWriter) (method : String) : World := ⟨w, method, [], none⟩

/-- Records an effect. -/
def World.log (s : World) (e : Event) : World :=
  { s with trace := s.trace ++ [e] }

/-- The function `checkWriteHeaderCode` of `net/http`, as a test: `WriteHeader`
panics for a code below 100 or above 999. -/
def checkWriteHeaderCode (code : Nat) : Bool :=
  decide (100 ≤ code) && decide (code ≤ 999)

/-- An interim status code: a 1xx code other than 101, which `WriteHeader` sends as
an informational response, the final status staying open. -/
def isInformational (code : Nat) : Bool :=
  decide (100 ≤ code) && decide (code ≤ 199) && !decide (code = 101)

/-- The call `w.WriteHeader(code)`: a call after the final status has been written
has no effect; otherwise a code outside 100..999 panics (the value of the panic is
the error), an interim code leaves the final response open, and any other code is
the final status. -/
def ResponseWriter.WriteHeader (w : ResponseWriter) (code : Nat) :
    Except String ResponseWriter :=
  if w.wroteHeader then .ok w
  else if !checkWriteHeaderCode code then
    .error ("invalid WriteHeader code " ++ toString code)
  else if isInformational code then .ok w
  else .ok { w with wroteHeader := true, status := code, sentHeader := w.header }

/-- The call `w.Write(p)` while answering a request of method `method`: writes the
status line with code 200 first if no final status has been written yet; the bytes of
the response to a HEAD request are taken and dropped.  (That a 1xx, 204 or 304
response refuses body bytes, and the bound of a declared `Content-Length`, are not
part of this writer.) -/
def ResponseWriter.Write (w : ResponseWriter) (method : String) (p : Bytes) :
    ResponseWriter :=
  let w :=
    if w.wroteHeader then w
    else { w with wroteHeader := true, status := 200, sentHeader := w.header }
  if method = "HEAD" then w else { w with body := w.body ++ p }

/-- The call `w.WriteHeader(code)`. -/
def World.WriteHeader (s : World) (code : Nat) : World :=
  match s.w.WriteHeader code with
  | .ok w => { s with w := w, trace := s.trace ++ [.writeHeader code] }
  | .error value =>
    { s with trace := s.trace ++ [.writeHeader code], panicked := some value }

/-- The call `w.Write(p)`. -/
def World.Write (s : World) (p : Bytes) : World :=
  { s with w := s.w.Write s.method p, trace := s.trace ++ [.write p] }

/-- The call `w.Header().Add(key, value)`. -/
def World.HeaderAdd (s : World) (key value : String) : World :=
  { s with w := { s.w with header := s.w.header.Add key value },
           trace := s.trace ++ [.headerAdd key value] }

/-- The call `w.Header().Set(key, value)`. -/
def World.HeaderSet (s : World) (key value : String) : World :=
  { s with w := { s.w with header := s.w.header.Set key value },
           trace := s.trace ++ [.headerSet key value] }

/-- The call `w.Header().Del(key)`. -/
def World.HeaderDel (s : World) (key : String) : World :=
  { s with w := { s.w with header := s.w.header.Del key },
           trace := s.trace ++ [.headerDel key] }

/-- The function `http.Error(w, error, code)`. -/
def httpError (s : World) (error : String) (code : Nat) : World :=
  let s := s.HeaderDel "Content-Length"
  let s := s.HeaderSet "Content-Type" "text/plain; charset=utf-8"
  let s := s.HeaderSet "X-Content-Type-Options" "nosniff"
  let s := s.WriteHeader code
  if s.panicked.isSome then s else s.Write (error ++ "\n").data

/-- The result of `io.Copy`: the destination afterwards, the count and the error. -/
structure CopyResult (σ : Type) where
  dst : σ
  written : Nat
  err : Option GoError

/-- The function `io.Copy(dst, src)` (its generic loop).  `read` records a `Read` of
the source in the state, `write` is the `Write` of the destination. -/
def ioCopy {σ : Type} (read : σ → ReadStep → σ)
    (write : σ → Bytes → σ × Nat × Option GoError) :
    σ → Reader → Nat → CopyResult σ
  | s, [], written => ⟨read s ⟨[], some EOF⟩, written, none⟩
  | s, step :: rest, written =>
    let s := read s step
    let nr := step.data.length
    if 0 < nr then
      match write s step.data with
      | (s, nw, ew) =>
        let invalid := decide (nr < nw)
        let ew := if invalid then (if ew.isNone then some errInvalidWrite else ew) else ew
        let nw := if invalid then 0 else nw
        let written := written + nw
        match ew with
        | some e => ⟨s, written, some e⟩
        | none =>
          if nr ≠ nw then ⟨s, written, some ErrShortWrite⟩
          else
            match step.err with
            | some er => ⟨s, written, if er = EOF then none else some er⟩
            | none => ioCopy read write s rest written
    else
      match step.err with
      | some er => ⟨s, written, if er = EOF then none else some er⟩
      | none => ioCopy read write s rest written

/-! ## The handlers of `proxy/proxy.go` -/

/-- The function `SendErrorAtServingRequest`. -/
def SendErrorAtServingRequest (s : World) (err : GoError) : World :=
  let s := s.WriteHeader 400
  s.Write err.msg.data

/-- The loop `for key, value := range r.Header { proxyRequest.Header[key] = value }`. -/
def copyClientHeaders (h : Header) (proxyRequest : ClientRequest) : ClientRequest :=
  h.foldl (fun q kv => { q with Header := mapSet q.Header kv.1 kv.2 }) proxyRequest

/-- The loop over `proxyResponse.Header` that adds every value to `w.Header()`. -/
def copyResponseHeaders (h : Header) (s : World) : World :=
  h.foldl (fun s kv => kv.2.foldl (fun s value => s.HeaderAdd kv.1 value) s) s

/-- The `Write` of the response writer as `io.Copy` calls it: every byte is taken. -/
def World.copyWrite (s : World) (p : Bytes) : World × Nat × Option GoError :=
  (s.Write p, p.length, none)

/-- The function `Http_proxy`. -/
def Http_proxy (env : Env) (w : ResponseWriter) (r : Request) : World :=
  let s := World.enter w r.Method
  let s := s.log (.newRequest r.Method ("http://" ++ r.Host))
  match NewRequest env r.Method ("http://" ++ r.Host) r.Body with
  | .error _ =>
    -- `err` is not inspected and `proxyRequest` is nil: `proxyRequest.Header[key]`
    -- (for an empty `r.Header`, `req.URL` inside `Do`) dereferences it
    { s with panicked := some "runtime error: invalid memory address or nil pointer dereference" }
  | .ok proxyRequest =>
    let proxyRequest := copyClientHeaders r.Header proxyRequest
    let s := s.log (.clientDo proxyRequest)
    match env.clientDo proxyRequest with
    | .error err => SendErrorAtServingRequest s err
    | .ok proxyResponse =>
      let s := copyResponseHeaders proxyResponse.Header s
      let s := s.WriteHeader proxyResponse.StatusCode
      let s :=
        if s.panicked.isSome then s
        else (ioCopy (fun s _ => s) World.copyWrite s proxyResponse.Body 0).dst
      -- deferred, also when `WriteHeader` panics: proxyResponse.Body.Close()
      s.log .bodyClose

/-- The function `getRemoteAddr`. -/
def getRemoteAddr (r : Request) : String :=
  if r.Host = "http:" then
    let temp := stringsReplace1 r.RequestURI "http://" ""
    stringsReplace1 temp "/" ""
  else r.Host

/-- The function `Https_proxy`. -/
def Https_proxy (env : Env) (w : ResponseWriter) (r : Request) : World :=
  let s := World.enter w r.Method
  let s := s.log (.dial (getRemoteAddr r))
  match env.dial (getRemoteAddr r) with
  | .error err =>
    let s := httpError s err.msg 503
    SendErrorAtServingRequest s err
  | .ok proxyConn =>
    let s := s.WriteHeader 200
    match s.w.hijacker with
    | none => httpError s "Hijacking not supported" 500
    | some hijacked =>
      let s := s.log .hijack
      let clientConn := hijacked.conn
      let s :=
        match hijacked.err with
        | some err => httpError s err.msg 503
        | none => s
      let s := s.log (.goTransfer (some proxyConn) clientConn)
      s.log (.goTransfer clientConn (some proxyConn))

/-- The method `ServeHTTP`. -/
def ServeHTTP (env : Env) (w : ResponseWriter) (r : Request) : World :=
  if r.Method = "CONNECT" then Https_proxy env w r else Http_proxy env w r

/-! ## The copy loop of one direction of a tunnel -/

/-- One call of `Write` on a connection: the count and the error it returns. -/
structure WriteStep where
  n : Nat
  err : Option GoError
deriving DecidableEq, Repr

/-- What happens on the two connections of one `transfer`. -/
inductive ConnEvent where
  | read (data : Bytes) (err : Option GoError)
  | write (p : Bytes) (n : Nat) (err : Option GoError)
  | closeSource
  | closeDestination
deriving DecidableEq, Repr

/-- The destination of a `transfer` with the record of what happened: `script`
holds the results of its coming `Write` calls; once they are used up a `Write`
takes every byte. -/
structure Pipe where
  script : List WriteStep
  log : List ConnEvent
deriving DecidableEq, Repr

/-- The call `source.Read`, recorded. -/
def Pipe.read (s : Pipe) (step : ReadStep) : Pipe :=
  { s with log := s.log ++ [.read step.data step.err] }

/-- The call `destination.Write(p)`, recorded. -/
def Pipe.write (s : Pipe) (p : Bytes) : Pipe × Nat × Option GoError :=
  match s.script with
  | [] => ({ s with log := s.log ++ [.write p p.length none] }, p.length, none)
  | ws :: rest => (⟨rest, s.log ++ [.write p ws.n ws.err]⟩, ws.n, ws.err)

/-- The raw-socket takeover. -/
def Event.isHijack : Event → Bool
  | .hijack => true
  | _ => false

/-- The start of a copy loop. -/
def Event.isGoTransfer : Event → Bool
  | .goTransfer _ _ => true
  | _ => false

/-- An effect of the HTTP forwarder: building or executing an outbound request. -/
def Event.isForwarder : Event → Bool
  | .newRequest _ _ => true
  | .clientDo _ => true
  | _ => false

/-- An effect of the tunnel path: dialing, the takeover, the start of a copy loop. -/
def Event.isTunnel : Event → Bool
  | .dial _ => true
  | .hijack => true
  | .goTransfer _ _ => true
  | _ => false

/-- A value added to the client-facing header map. -/
def Event.isHeaderAdd : Event → Bool
  | .headerAdd _ _ => true
  | _ => false

/-- Body bytes handed to the client. -/
def Event.isWrite : Event → Bool
  | .write _ => true
  | _ => false

/-- The outbound requests that were executed, in order. -/
def executedRequests : List Event → List ClientRequest
  | [] => []
  | .clientDo q :: rest => q :: executedRequests rest
  | _ :: rest => executedRequests rest

/-- Follows the words of the specification, not the code: the `Host` field when it is
present (non-empty); otherwise the request-target without a leading `http://` and
without the path, which is everything from the first `/` after the authority. -/
def remoteAddrAsSpecified (r : Request) : String :=
  if r.Host ≠ "" then r.Host
  else
    let t := r.RequestURI.data
    let t := if "http://".data.isPrefixOf t then t.drop "http://".data.length else t
    String.mk (t.takeWhile (fun c => c != '/'))

/-! ## Notions used in the statements -/

/-- The header map after adding, key by key, every value of `src`. -/
def addAll (src : Header) (h : Header) : Header :=
  src.foldl (fun h kv => kv.2.foldl (fun h value => h.Add kv.1 value) h) h

/-- A network on which every dial is refused and every outbound request fails. -/
def envDown : Env where
  newRequestErr := fun _ _ => none
  clientDo := fun _ => .error ⟨"connection refused"⟩
  dial := fun _ => .error ⟨"dial tcp: connection refused"⟩

/-- A network on which every dial reaches the target, at connection 7. -/
def envUp : Env where
  newRequestErr := fun _ _ => none
  clientDo := fun _ => .error ⟨"connection refused"⟩
  dial := fun _ => .ok ⟨7⟩

/-- The response writer the server hands to a handler: nothing written yet. -/
def freshWriter (hijacker : Option HijackResult) : ResponseWriter :=
  ⟨[], false, 0, [], [], hijacker⟩

/-- A CONNECT request for `example.com:443`. -/
def connectRequest : Request :=
  ⟨"CONNECT", "example.com:443", "example.com:443", [], []⟩

/-- A network on which the origin answers 200 with two cookies and the body `hello`. -/
def envOrigin : Env where
  newRequestErr := fun _ _ => none
  clientDo := fun _ =>
    .ok ⟨200, [("Set-Cookie", ["a=1", "b=2"]), ("Content-Type", ["text/plain"])],
      [⟨"hel".data, none⟩, ⟨"lo".data, some EOF⟩]⟩
  dial := fun _ => .error ⟨"dial tcp: connection refused"⟩

/-- A network on which no outbound request can be built. -/
def envBadURL : Env where
  newRequestErr := fun _ url =>
    if url = "http://example.com:abc" then
      some ⟨"parse \"http://example.com:abc\": invalid port \":abc\" after host"⟩
    else none
  clientDo := fun _ => .error ⟨"connection refused"⟩
  dial := fun _ => .error ⟨"dial tcp: connection refused"⟩

/-- A GET request for `example.com` with a repeated header. -/
def getRequest : Request :=
  ⟨"GET", "example.com", "http://example.com/", [("X", ["a", "b"]), ("Accept", ["*/*"])],
    [⟨"payload".data, some EOF⟩]⟩

/-- A HEAD request for `example.com`. -/
def headRequest : Request :=
  ⟨"HEAD", "example.com", "http://example.com/", [("Accept", ["*/*"])], []⟩

/-- A GET request whose `Host` has a port that is not a number. -/
def badHostRequest : Request :=
  ⟨"GET", "example.com:abc", "http://example.com:abc/", [("X", ["a"])], []⟩

/-! ## The address a CONNECT request is dialed at -/

theorem replaceFirst_absent (c : Char) (a : List Char) (h : c ∉ a) :
    replaceFirst [c] [] a = a := by
  induction a with
  | nil => simp [replaceFirst]
  | cons x xs ih =>
    have hx : c ≠ x := fun e => h (by simp [e])
    have hxs : c ∉ xs := fun e => h (by simp [e])
    simp [replaceFirst, List.isPrefixOf, hx, ih hxs]

theorem replaceFirst_single (c : Char) (a p : List Char) (h : c ∉ a) :
    replaceFirst [c] [] (a ++ c :: p) = a ++ p := by
  induction a with
  | nil => simp [replaceFirst, List.isPrefixOf]
  | cons x xs ih =>
    have hx : c ≠ x := fun e => h (by simp [e])
    have hxs : c ∉ xs := fun e => h (by simp [e])
    simp [replaceFirst, List.isPrefixOf, hx, ih hxs]

theorem replaceFirst_scheme (t : List Char) :
    replaceFirst ['h', 't', 't', 'p', ':', '/', '/'] []
      (['h', 't', 't', 'p', ':', '/', '/'] ++ t) = t := by
  simp [replaceFirst, List.isPrefixOf]

/-- C6 (counterexample): a CONNECT request whose `Host` is the non-empty text `http:`,
which is what the server derives from the request line
`CONNECT http://example.com:443/ HTTP/1.1`, is dialed at the authority of its
request-target, not at its `Host`. -/
theorem getRemoteAddr_not_as_specified :
    (⟨"CONNECT", "http:", "http://example.com:443/", [], []⟩ : Request).Host ≠ ""
      ∧ getRemoteAddr ⟨"CONNECT", "http:", "http://example.com:443/", [], []⟩
        = "example.com:443"
      ∧ remoteAddrAsSpecified ⟨"CONNECT", "http:", "http://example.com:443/", [], []⟩
        = "http:"
      ∧ getRemoteAddr ⟨"CONNECT", "http:", "http://example.com:443/", [], []⟩
        ≠ remoteAddrAsSpecified ⟨"CONNECT", "http:", "http://example.com:443/", [], []⟩ := by
  decide

/-- C6 (amended): `getRemoteAddr` returns the `Host` field whenever `Host` is present
and is not the text `http:`; when `Host` is `http:` and the request-target is
`http://` followed by an authority `a` and an empty path or the path `/`, it returns
the request-target without the leading `http://` and without the path, which is `a`. -/
theorem getRemoteAddr_amended (r : Request) :
    (r.Host ≠ "" → r.Host ≠ "http:" → getRemoteAddr r = r.Host)
      ∧ (∀ a : String, r.Host = "http:" → '/' ∉ a.data →
          (r.RequestURI = "http://" ++ a ∨ r.RequestURI = "http://" ++ a ++ "/") →
          getRemoteAddr r = a) := by
  refine ⟨fun _ h => by simp [getRemoteAddr, h], ?_⟩
  intro a h ha hu
  rcases hu with hu | hu
  · have h1 : r.RequestURI.data = ['h', 't', 't', 'p', ':', '/', '/'] ++ a.data := by
      rw [hu]; rfl
    simp only [getRemoteAddr, h, if_true, stringsReplace1, h1, replaceFirst_scheme]
    show String.mk (replaceFirst ['/'] [] a.data) = a
    rw [replaceFirst_absent _ _ ha]
  · have h1 : r.RequestURI.data
        = ['h', 't', 't', 'p', ':', '/', '/'] ++ (a.data ++ '/' :: []) := by
      rw [hu]; simp [String.data_append]
    simp only [getRemoteAddr, h, if_true, stringsReplace1, h1, replaceFirst_scheme]
    show String.mk (replaceFirst ['/'] [] (a.data ++ '/' :: [])) = a
    rw [replaceFirst_single _ _ _ ha]
    simp

/-- C6 (amended), at a request with `Host` equal to `http:`. -/
theorem getRemoteAddr_amended_witness :
    getRemoteAddr ⟨"CONNECT", "http:", "http://example.com:443/", [], []⟩
      = "example.com:443" :=
  (getRemoteAddr_amended ⟨"CONNECT", "http:", "http://example.com:443/", [], []⟩).2
    "example.com:443" rfl (by decide) (Or.inr (by decide))

/-! ## The CONNECT path -/

/-- C4: when the dial of a CONNECT request fails, the client receives status 503,
the connection is not hijacked, no copy loop is started and the HTTP forwarder does
not run. -/
theorem connect_dial_failure_status (env : Env) (w : ResponseWriter) (r : Request)
    (err : GoError) (hm : r.Method = "CONNECT")
    (hdial : env.dial (getRemoteAddr r) = .error err) (hw : w.wroteHeader = false) :
    (ServeHTTP env w r).w.wroteHeader = true
      ∧ (ServeHTTP env w r).w.status = 503
      ∧ (ServeHTTP env w r).panicked = none
      ∧ ∀ e ∈ (ServeHTTP env w r).trace,
          e.isHijack = false ∧ e.isGoTransfer = false ∧ e.isForwarder = false := by
  simp [ServeHTTP, Https_proxy, hm, hdial, httpError, SendErrorAtServingRequest,
    World.WriteHeader, World.Write, World.HeaderSet, World.HeaderDel, World.log,
    World.enter, ResponseWriter.WriteHeader, ResponseWriter.Write, hw,
    checkWriteHeaderCode, isInformational,
    Event.isHijack, Event.isGoTransfer, Event.isForwarder]

/-- C4, at a refused dial. -/
theorem connect_dial_failure_status_witness :
    (ServeHTTP envDown (freshWriter none) connectRequest).w.status = 503 :=
  (connect_dial_failure_status envDown (freshWriter none) connectRequest
    ⟨"dial tcp: connection refused"⟩ rfl rfl rfl).2.1

/-- C8 (counterexample): after a refused dial the body the client receives is not the
error message alone; the message is followed by a newline and by the message again. -/
theorem connect_dial_failure_body_not_message :
    (ServeHTTP envDown (freshWriter none) connectRequest).w.body
        ≠ "dial tcp: connection refused".data
      ∧ (ServeHTTP envDown (freshWriter none) connectRequest).w.body
        = "dial tcp: connection refused\ndial tcp: connection refused".data := by
  decide

/-- C8 (amended): when the dial of a CONNECT request fails with error `err`, the body
of the error response begins with the text of the message of `err` followed by a
newline. -/
theorem connect_dial_failure_body (env : Env) (w : ResponseWriter) (r : Request)
    (err : GoError) (hm : r.Method = "CONNECT")
    (hdial : env.dial (getRemoteAddr r) = .error err) (hb : w.body = []) :
    ∃ rest, (ServeHTTP env w r).w.body = err.msg.data ++ [Char.ofNat 10] ++ rest := by
  refine ⟨err.msg.data, ?_⟩
  cases hwh : w.wroteHeader <;>
    simp [ServeHTTP, Https_proxy, hm, hdial, httpError, SendErrorAtServingRequest,
      World.WriteHeader, World.Write, World.HeaderSet, World.HeaderDel, World.log,
      World.enter, ResponseWriter.WriteHeader, ResponseWriter.Write, hwh, hb,
      checkWriteHeaderCode, isInformational, String.data_append]

/-- C8 (amended), at a refused dial. -/
theorem connect_dial_failure_body_witness :
    ∃ rest, (ServeHTTP envDown (freshWriter none) connectRequest).w.body
      = "dial tcp: connection refused".data ++ [Char.ofNat 10] ++ rest :=
  connect_dial_failure_body envDown (freshWriter none) connectRequest
    ⟨"dial tcp: connection refused"⟩ rfl rfl rfl

/-- C5 (the code at the failing input): when the dial succeeds and the response writer
is not a `Hijacker`, the status the client receives is the 200 written before the
check, not 500; the message follows as the body, and neither a takeover nor a copy
loop happens. -/
theorem connect_no_hijacker_status (env : Env) (w : ResponseWriter) (r : Request)
    (proxyConn : Conn) (hm : r.Method = "CONNECT")
    (hdial : env.dial (getRemoteAddr r) = .ok proxyConn) (hh : w.hijacker = none)
    (hw : w.wroteHeader = false) (hb : w.body = []) :
    (ServeHTTP env w r).w.status = 200
      ∧ (ServeHTTP env w r).w.body = "Hijacking not supported\n".data
      ∧ ∀ e ∈ (ServeHTTP env w r).trace, e.isHijack = false ∧ e.isGoTransfer = false := by
  simp [ServeHTTP, Https_proxy, hm, hdial, World.WriteHeader, World.log, World.enter,
    httpError, World.Write, World.HeaderSet, World.HeaderDel,
    ResponseWriter.WriteHeader, ResponseWriter.Write, hw, hb, hh,
    checkWriteHeaderCode, isInformational, Event.isHijack, Event.isGoTransfer]

/-- C5, at a writer that is not a `Hijacker`. -/
theorem connect_no_hijacker_status_witness :
    (ServeHTTP envUp (freshWriter none) connectRequest).w.status = 200 :=
  (connect_no_hijacker_status envUp (freshWriter none) connectRequest ⟨7⟩
    rfl rfl rfl rfl rfl).1

/-- C7 (the code at the failing input): when `Hijack` returns an error, both copy
loops are still started, with the connection `Hijack` returned (nil) as one end. -/
theorem connect_hijack_error_starts_transfer (env : Env) (w : ResponseWriter)
    (r : Request) (proxyConn : Conn) (hijacked : HijackResult) (err : GoError)
    (hm : r.Method = "CONNECT") (hdial : env.dial (getRemoteAddr r) = .ok proxyConn)
    (hh : w.hijacker = some hijacked) (he : hijacked.err = some err) :
    ∃ before, (ServeHTTP env w r).trace
      = [.dial (getRemoteAddr r), .writeHeader 200, .hijack] ++ before
        ++ [.goTransfer (some proxyConn) hijacked.conn,
            .goTransfer hijacked.conn (some proxyConn)] := by
  refine ⟨[.headerDel "Content-Length",
    .headerSet "Content-Type" "text/plain; charset=utf-8",
    .headerSet "X-Content-Type-Options" "nosniff", .writeHeader 503,
    .write (err.msg ++ "\n").data], ?_⟩
  cases hwh : w.wroteHeader <;>
    simp [ServeHTTP, Https_proxy, hm, hdial, World.WriteHeader, World.log, World.enter,
      hh, he, hwh, httpError, World.Write, World.HeaderSet, World.HeaderDel,
      ResponseWriter.WriteHeader, checkWriteHeaderCode, isInformational]

/-- C7, at a `Hijack` that fails and returns no connection. -/
theorem connect_hijack_error_starts_transfer_witness :
    ∃ before, (ServeHTTP envUp (freshWriter (some ⟨none, some ⟨"hijack failed"⟩⟩))
        connectRequest).trace
      = [.dial (getRemoteAddr connectRequest), .writeHeader 200, .hijack] ++ before
        ++ [.goTransfer (some ⟨7⟩) none, .goTransfer none (some ⟨7⟩)] :=
  connect_hijack_error_starts_transfer envUp
    (freshWriter (some ⟨none, some ⟨"hijack failed"⟩⟩)) connectRequest ⟨7⟩
    ⟨none, some ⟨"hijack failed"⟩⟩ ⟨"hijack failed"⟩ rfl rfl rfl rfl

/-! ## Header maps -/

theorem mapLookup_mapSet (h : Header) (k k1 : String) (v : List String) :
    mapLookup (mapSet h k v) k1 = if k = k1 then some v else mapLookup h k1 := by
  induction h with
  | nil => simp [mapSet, mapLookup]
  | cons kv rest ih =>
    by_cases hk : kv.1 = k
    · by_cases hk1 : k = k1
      · simp [mapSet, mapLookup, hk, hk1]
      · simp [mapSet, mapLookup, hk, hk1]
    · by_cases hk1 : k = k1
      · subst hk1
        simp [mapSet, mapLookup, hk, ih]
      · by_cases hk2 : kv.1 = k1
        · have hk3 : ¬ k1 = k := fun e => hk (hk2.trans e)
          simp [mapSet, mapLookup, hk1, hk2, hk3]
        · simp [mapSet, mapLookup, hk, hk1, hk2, ih]

theorem mapLookup_absent (h : Header) (k : String) (hk : k ∉ h.map Prod.fst) :
    mapLookup h k = none := by
  induction h with
  | nil => rfl
  | cons kv rest ih =>
    simp only [List.map_cons, List.mem_cons, not_or] at hk
    have h1 : ¬ kv.1 = k := fun e => hk.1 e.symm
    simp [mapLookup, h1, ih hk.2]

theorem copyClientHeaders_fields (h : Header) (q : ClientRequest) :
    (copyClientHeaders h q).Method = q.Method ∧ (copyClientHeaders h q).URL = q.URL
      ∧ (copyClientHeaders h q).Body = q.Body
      ∧ (copyClientHeaders h q).Header
          = h.foldl (fun m kv => mapSet m kv.1 kv.2) q.Header := by
  induction h generalizing q with
  | nil => simp [copyClientHeaders]
  | cons kv rest ih =>
    have := ih { q with Header := mapSet q.Header kv.1 kv.2 }
    simpa [copyClientHeaders] using this

theorem mapLookup_assignAll (src : Header) (m : Header) (k : String)
    (hkeys : (src.map Prod.fst).Nodup) :
    mapLookup (src.foldl (fun m kv => mapSet m kv.1 kv.2) m) k
      = match mapLookup src k with
        | some v => some v
        | none => mapLookup m k := by
  induction src generalizing m with
  | nil => simp [mapLookup]
  | cons kv rest ih =>
    simp only [List.map_cons, List.nodup_cons] at hkeys
    simp only [List.foldl_cons, ih _ hkeys.2, mapLookup_mapSet]
    by_cases e : kv.1 = k
    · subst e
      simp [mapLookup, mapLookup_absent rest kv.1 hkeys.1]
    · simp [mapLookup, e]

/-! ## What the loops of `Http_proxy` do to the state -/

theorem addValues_world (vs : List String) (k : String) (s : World) :
    vs.foldl (fun s value => s.HeaderAdd k value) s
      = { s with
          w := { s.w with header := vs.foldl (fun h value => h.Add k value) s.w.header }
          trace := s.trace ++ vs.map (fun value => Event.headerAdd k value) } := by
  induction vs generalizing s with
  | nil => simp
  | cons v rest ih =>
    rw [List.foldl_cons, ih]
    simp [World.HeaderAdd]

theorem copyResponseHeaders_world (src : Header) (s : World) :
    ∃ hs, (∀ e ∈ hs, Event.isHeaderAdd e = true)
      ∧ copyResponseHeaders src s
        = { s with w := { s.w with header := addAll src s.w.header }
                   trace := s.trace ++ hs } := by
  induction src generalizing s with
  | nil => exact ⟨[], by simp, by simp [copyResponseHeaders, addAll]⟩
  | cons kv rest ih =>
    obtain ⟨hs, h1, h2⟩ := ih (kv.2.foldl (fun s value => s.HeaderAdd kv.1 value) s)
    refine ⟨kv.2.map (fun value => Event.headerAdd kv.1 value) ++ hs, ?_, ?_⟩
    · intro e he
      rcases List.mem_append.1 he with he | he
      · obtain ⟨v, _, rfl⟩ := List.mem_map.1 he
        rfl
      · exact h1 e he
    · simp only [copyResponseHeaders, List.foldl_cons] at h2 ⊢
      rw [h2, addValues_world]
      simp [addAll]

theorem World.log_trace (s : World) (e : Event) : (s.log e).trace = s.trace ++ [e] :=
  rfl

theorem World.WriteHeader_trace (s : World) (code : Nat) :
    (s.WriteHeader code).trace = s.trace ++ [.writeHeader code] := by
  unfold World.WriteHeader
  split <;> rfl

theorem ioCopy_trace (body : Reader) (s : World) (n : Nat) :
    ∃ bs, (∀ e ∈ bs, Event.isWrite e = true)
      ∧ (ioCopy (fun s _ => s) World.copyWrite s body n).dst.trace = s.trace ++ bs := by
  induction body generalizing s n with
  | nil => exact ⟨[], by simp, by simp [ioCopy]⟩
  | cons step rest ih =>
    obtain ⟨d, err⟩ := step
    by_cases hd : 0 < d.length
    · cases err with
      | some er =>
        exact ⟨[.write d], by simp [Event.isWrite],
          by simp [ioCopy, hd, World.copyWrite, World.Write]⟩
      | none =>
        obtain ⟨bs, h1, h2⟩ := ih (s.Write d) (n + d.length)
        refine ⟨.write d :: bs, ?_, ?_⟩
        · intro e hmem
          rcases List.mem_cons.1 hmem with rfl | hmem
          · rfl
          · exact h1 e hmem
        · simp only [ioCopy, hd, World.copyWrite, if_true, lt_irrefl, decide_False,
            Bool.false_eq_true, if_false, ne_eq, not_true_eq_false]
          rw [h2]
          simp [World.Write]
    · cases err with
      | some er => exact ⟨[], by simp, by simp [ioCopy, hd]⟩
      | none =>
        obtain ⟨bs, h1, h2⟩ := ih s n
        refine ⟨bs, h1, ?_⟩
        simp only [ioCopy, hd, if_false]
        rw [h2]

theorem executedRequests_append (a b : List Event) :
    executedRequests (a ++ b) = executedRequests a ++ executedRequests b := by
  induction a with
  | nil => rfl
  | cons e rest ih => cases e <;> simp [executedRequests, ih]

theorem executedRequests_headerAdds (a : List Event)
    (h : ∀ e ∈ a, Event.isHeaderAdd e = true) : executedRequests a = [] := by
  induction a with
  | nil => rfl
  | cons e rest ih =>
    have h1 := h e (by simp)
    have h2 := ih (fun x hx => h x (by simp [hx]))
    cases e <;> simp_all [executedRequests, Event.isHeaderAdd]

theorem executedRequests_writes (a : List Event)
    (h : ∀ e ∈ a, Event.isWrite e = true) : executedRequests a = [] := by
  induction a with
  | nil => rfl
  | cons e rest ih =>
    have h1 := h e (by simp)
    have h2 := ih (fun x hx => h x (by simp [hx]))
    cases e <;> simp_all [executedRequests, Event.isWrite]

/-- The record of effects of `Http_proxy` when the outbound request is built and
executed with success: the request is the only one executed. -/
theorem Http_proxy_trace (env : Env) (w : ResponseWriter) (r : Request)
    (req : ClientRequest) (resp : Response)
    (hreq : NewRequest env r.Method ("http://" ++ r.Host) r.Body = .ok req)
    (hdo : env.clientDo (copyClientHeaders r.Header req) = .ok resp) :
    ∃ rest, executedRequests rest = []
      ∧ (Http_proxy env w r).trace
        = [.newRequest r.Method ("http://" ++ r.Host),
            .clientDo (copyClientHeaders r.Header req)] ++ rest := by
  obtain ⟨hs, h1, h2⟩ := copyResponseHeaders_world resp.Header
    (((World.enter w r.Method).log (.newRequest r.Method ("http://" ++ r.Host))).log
      (.clientDo (copyClientHeaders r.Header req)))
  have h3 := World.WriteHeader_trace (copyResponseHeaders resp.Header
    (((World.enter w r.Method).log (.newRequest r.Method ("http://" ++ r.Host))).log
      (.clientDo (copyClientHeaders r.Header req)))) resp.StatusCode
  obtain ⟨bs, h4, h5⟩ := ioCopy_trace resp.Body ((copyResponseHeaders resp.Header
    (((World.enter w r.Method).log (.newRequest r.Method ("http://" ++ r.Host))).log
      (.clientDo (copyClientHeaders r.Header req)))).WriteHeader resp.StatusCode) 0
  have e1 : executedRequests hs = [] := executedRequests_headerAdds hs h1
  have e2 : executedRequests bs = [] := executedRequests_writes bs h4
  unfold Http_proxy
  simp only [hreq, hdo]
  split
  · refine ⟨hs ++ [.writeHeader resp.StatusCode] ++ [.bodyClose], ?_, ?_⟩
    · simp [executedRequests_append, e1, executedRequests]
    · rw [World.log_trace, h3, h2]
      simp [World.enter, World.log]
  · refine ⟨hs ++ [.writeHeader resp.StatusCode] ++ bs ++ [.bodyClose], ?_, ?_⟩
    · simp [executedRequests_append, e1, e2, executedRequests]
    · rw [World.log_trace, h5, h3, h2]
      simp [World.enter, World.log]

/-- C2: the outbound request that is executed has the method and the body of the
inbound request, the URL `http://` followed by its `Host`, and a header map that
holds under every key the value list of the inbound header map. -/
theorem http_outbound_request (env : Env) (w : ResponseWriter) (r : Request)
    (req : ClientRequest) (hm : r.Method ≠ "CONNECT") (hne : r.Method ≠ "")
    (hreq : NewRequest env r.Method ("http://" ++ r.Host) r.Body = .ok req)
    (hkeys : (r.Header.map Prod.fst).Nodup) :
    ∃ q, executedRequests (ServeHTTP env w r).trace = [q]
      ∧ q.Method = r.Method ∧ q.URL = "http://" ++ r.Host ∧ q.Body = r.Body
      ∧ ∀ k, mapLookup q.Header k = mapLookup r.Header k := by
  have hq : req = ⟨r.Method, "http://" ++ r.Host, [], r.Body⟩ := by
    unfold NewRequest at hreq
    simp only [hne, if_false] at hreq
    split at hreq
    · cases hreq
    · cases hreq
      rfl
  obtain ⟨f1, f2, f3, f4⟩ := copyClientHeaders_fields r.Header req
  refine ⟨copyClientHeaders r.Header req, ?_, ?_, ?_, ?_, ?_⟩
  · have hs1 : ServeHTTP env w r = Http_proxy env w r := by simp [ServeHTTP, hm]
    rw [hs1]
    cases hdo : env.clientDo (copyClientHeaders r.Header req) with
    | error err =>
      cases hwh : w.wroteHeader <;>
        simp [Http_proxy, hreq, hdo, SendErrorAtServingRequest, World.WriteHeader,
          World.Write, World.log, World.enter, executedRequests,
          ResponseWriter.WriteHeader, checkWriteHeaderCode, isInformational, hwh]
    | ok resp =>
      obtain ⟨rest, h1, h2⟩ := Http_proxy_trace env w r req resp hreq hdo
      rw [h2]
      simp [executedRequests_append, h1, executedRequests]
  · rw [f1, hq]
  · rw [f2, hq]
  · rw [f3, hq]
  · intro k
    rw [f4, mapLookup_assignAll _ _ _ hkeys, hq]
    cases mapLookup r.Header k <;> simp [mapLookup]

/-- C2, at a GET request with a repeated header. -/
theorem http_outbound_request_witness :
    ∃ q, executedRequests (ServeHTTP envOrigin (freshWriter none) getRequest).trace = [q]
      ∧ q.Method = "GET" ∧ q.URL = "http://" ++ "example.com"
      ∧ q.Body = [⟨"payload".data, some EOF⟩]
      ∧ ∀ k, mapLookup q.Header k = mapLookup [("X", ["a", "b"]), ("Accept", ["*/*"])] k :=
  http_outbound_request envOrigin (freshWriter none) getRequest
    ⟨"GET", "http://example.com", [], [⟨"payload".data, some EOF⟩]⟩
    (by decide) (by decide) rfl (by decide)

/-- C3 (counterexample): a HEAD request whose origin refuses the connection is
answered with status 400 and an empty body, although the error has a message. -/
theorem http_origin_failure_head_body_empty :
    (ServeHTTP envDown (freshWriter none) headRequest).w.status = 400
      ∧ (ServeHTTP envDown (freshWriter none) headRequest).w.body = []
      ∧ (ServeHTTP envDown (freshWriter none) headRequest).w.body
        ≠ "connection refused".data := by
  decide

/-- C3 (amended): when executing the outbound request fails with error `err`, the
client receives status 400 and, unless the method is HEAD, the message of `err` as
the body; the response to a HEAD request has an empty body.  The client-facing header
map is left as it was and nothing of the tunnel path happens. -/
theorem http_origin_failure (env : Env) (w : ResponseWriter) (r : Request)
    (req : ClientRequest) (err : GoError) (hm : r.Method ≠ "CONNECT")
    (hreq : NewRequest env r.Method ("http://" ++ r.Host) r.Body = .ok req)
    (hdo : env.clientDo (copyClientHeaders r.Header req) = .error err)
    (hw : w.wroteHeader = false) (hb : w.body = []) :
    (ServeHTTP env w r).panicked = none
      ∧ (ServeHTTP env w r).w.wroteHeader = true
      ∧ (ServeHTTP env w r).w.status = 400
      ∧ (r.Method ≠ "HEAD" → (ServeHTTP env w r).w.body = err.msg.data)
      ∧ (r.Method ≠ "HEAD" → err.msg ≠ "" → (ServeHTTP env w r).w.body ≠ [])
      ∧ (r.Method = "HEAD" → (ServeHTTP env w r).w.body = [])
      ∧ (ServeHTTP env w r).w.header = w.header
      ∧ (ServeHTTP env w r).w.sentHeader = w.header
      ∧ ∀ e ∈ (ServeHTTP env w r).trace,
          e.isHeaderAdd = false ∧ e.isTunnel = false := by
  have hs1 : ServeHTTP env w r = Http_proxy env w r := by simp [ServeHTTP, hm]
  have hne : err.msg ≠ "" → err.msg.data ≠ [] := fun h hd => h (String.ext hd)
  rw [hs1]
  simp only [Http_proxy, hreq, hdo]
  by_cases hhead : r.Method = "HEAD"
  · simp [SendErrorAtServingRequest, World.WriteHeader,
      World.Write, World.log, World.enter, ResponseWriter.WriteHeader,
      ResponseWriter.Write, hw, hb, hhead, checkWriteHeaderCode, isInformational,
      Event.isHeaderAdd, Event.isTunnel]
  · simp [SendErrorAtServingRequest, World.WriteHeader,
      World.Write, World.log, World.enter, ResponseWriter.WriteHeader,
      ResponseWriter.Write, hw, hb, hhead, checkWriteHeaderCode, isInformational,
      Event.isHeaderAdd, Event.isTunnel]
    exact hne

/-- C3 (amended), at a GET request whose origin refuses the connection. -/
theorem http_origin_failure_witness :
    (ServeHTTP envDown (freshWriter none) getRequest).w.status = 400
      ∧ (ServeHTTP envDown (freshWriter none) getRequest).w.body
        = "connection refused".data :=
  have h := http_origin_failure envDown (freshWriter none) getRequest
    ⟨"GET", "http://example.com", [], [⟨"payload".data, some EOF⟩]⟩
    ⟨"connection refused"⟩ (by decide) rfl rfl rfl rfl
  ⟨h.2.2.1, h.2.2.2.1 (by decide)⟩

/-- C10 (the code at the failing input): when the outbound request cannot be built,
`Http_proxy` uses the nil request and the handler ends in a panic; nothing is written
to the client, in particular no status 400 and no error message. -/
theorem http_unbuilt_request_panics (env : Env) (w : ResponseWriter) (r : Request)
    (err : GoError) (hm : r.Method ≠ "CONNECT")
    (hreq : NewRequest env r.Method ("http://" ++ r.Host) r.Body = .error err) :
    (ServeHTTP env w r).panicked
        = some "runtime error: invalid memory address or nil pointer dereference"
      ∧ (ServeHTTP env w r).w = w
      ∧ (ServeHTTP env w r).trace = [.newRequest r.Method ("http://" ++ r.Host)] := by
  simp [ServeHTTP, hm, Http_proxy, hreq, World.log, World.enter]

/-- C10, at a `Host` whose port is not a number. -/
theorem http_unbuilt_request_panics_witness :
    (ServeHTTP envBadURL (freshWriter none) badHostRequest).panicked
        = some "runtime error: invalid memory address or nil pointer dereference"
      ∧ (ServeHTTP envBadURL (freshWriter none) badHostRequest).w.wroteHeader = false
      ∧ (ServeHTTP envBadURL (freshWriter none) badHostRequest).w.body = [] :=
  have h := http_unbuilt_request_panics envBadURL (freshWriter none) badHostRequest
    ⟨"parse \"http://example.com:abc\": invalid port \":abc\" after host"⟩
    (by decide) rfl
  ⟨h.1, by rw [h.2.1]; rfl, by rw [h.2.1]; rfl⟩

/-! ## The copy loop -/

end GoProxy
